import Mathlib

/-!
# pgxpool: RetryPool retry engine and Tx finalize protocol

A shallow embedding of `pgxpool/retry_pool.go` and `pgxpool/tx.go`.

* Go `error` values are finite chains of cause nodes (`Error`); the nil error is the
  empty chain and `errors.Unwrap` drops the head node.
* Closures passed to `withRetry` mutate captured variables; they are embedded as
  state transformers `σ → Error × σ`.
* `*Conn` pointers are addresses into a `Heap`; the nil pointer is `none`.
-/

namespace Pgxpool

/-! ## Go errors -/

/-- One node of a Go error chain. `ident` is the identity of the error value (what `==`
compares), `ctxAlreadyDone` says whether the node's dynamic type is
`*pgconn.СontextAlreadyDoneError`, and `safeToRetry` is the result of the node's
`SafeToRetry() bool` method when the node implements it. -/
structure ErrNode where
  ident : Nat
  ctxAlreadyDone : Bool
  safeToRetry : Option Bool
deriving DecidableEq, Repr

/-- A Go `error`: the error itself followed by its wrapped causes down to the root.
The empty chain is the nil error. -/
abbrev Error := List ErrNode

/-- Go `errors.Unwrap`: the wrapped cause, nil at the root and for the nil error. -/
def errors.Unwrap (err : Error) : Error :=
  err.tail

/-- Go `errors.Is` for nodes without a custom `Is` method: a nil target matches only the nil
error, otherwise some node of the chain is the target value. -/
def errors.Is (err target : Error) : Bool :=
  match target with
  | [] => err.isEmpty
  | t :: _ => err.any (fun n => n.ident == t.ident)

/-- Go `errors.As(err, &ctxAlreadyDone)` with `ctxAlreadyDone` of type
`*pgconn.СontextAlreadyDoneError`: some node of the chain has that dynamic type. The value
stored into the target variable is never read by the package and is not tracked. -/
def errors.AsCtxAlreadyDone (err : Error) : Bool :=
  err.any (fun n => n.ctxAlreadyDone)

/-- Modelled from the spec: `pgconn.SafeToRetry`, the retryable-marker capability of a single
error value ("any error may optionally expose a boolean self-certification"): the value of
the error's own `SafeToRetry()` method, false when the method is absent or the error is
nil. -/
def pgconn.SafeToRetry (err : Error) : Bool :=
  match err with
  | [] => false
  | n :: _ =>
    match n.safeToRetry with
    | some b => b
    | none => false

/-- Modelled from the spec: `pgconn.ErrLockCleanupConn`, the distinguished "cleanup lock
contention" sentinel error. -/
def pgconn.ErrLockCleanupConn : Error :=
  [{ ident := 3, ctxAlreadyDone := false, safeToRetry := none }]

/-- Go `context.Canceled`. -/
def context.Canceled : Error :=
  [{ ident := 1, ctxAlreadyDone := false, safeToRetry := none }]

/-- Go `context.DeadlineExceeded`. -/
def context.DeadlineExceeded : Error :=
  [{ ident := 2, ctxAlreadyDone := false, safeToRetry := none }]

/-- A `context.Context`, reduced to what the package reads from it: the value `ctx.Err()`
returns at the point where the finalize protocol inspects it. -/
structure Context where
  Err : Error
deriving DecidableEq, Repr

/-! ## RetryPool -/

/-- `RetryPool.safeToRetry`: walk the cause chain, stop at the first node that
self-certifies. -/
def safeToRetry : Error → Bool
  | [] => false
  | n :: rest =>
    if pgconn.SafeToRetry (n :: rest) then true
    else safeToRetry rest

abbrev CommandTag := List Nat

abbrev Rows := Option Nat

abbrev TxHandle := Option Nat

/-- `pgxpool.Config`, reduced to the field the retry engine reads. -/
structure Config where
  MaxConns : Int
deriving DecidableEq, Repr

/-- The wrapped `*Pool`. Its operations are external collaborators: each is a transformer of
the world state `ω` for the call arguments (`ctx` and the remaining arguments, gathered in
`A`). -/
structure Pool (ω A : Type) where
  config : Config
  Exec : Context → A → ω → (CommandTag × Error) × ω
  Query : Context → A → ω → (Rows × Error) × ω
  QueryFunc : Context → A → ω → (CommandTag × Error) × ω
  Begin : Context → ω → (TxHandle × Error) × ω
  BeginTx : Context → A → ω → (TxHandle × Error) × ω
  BeginFunc : Context → A → ω → Error × ω
  BeginTxFunc : Context → A → ω → Error × ω
  CopyFrom : Context → A → ω → (Int × Error) × ω
  Ping : Context → ω → Error × ω

structure RetryPool (ω A : Type) where
  p : Pool ω A

/-- The loop of `RetryPool.withRetry`: `for i := ...; i > 0; i-- { ... }` over the
closure's captured state `s`. -/
def withRetryLoop {σ : Type} (f : σ → Error × σ) (i : Int) (s : σ) : σ :=
  if 0 < i then
    let r := f s
    if r.1.isEmpty || !safeToRetry r.1 then r.2
    else withRetryLoop f (i - 1) r.2
  else s
termination_by i.toNat
decreasing_by omega

/-- `RetryPool.withRetry`. -/
def RetryPool.withRetry {ω A σ : Type} (p : RetryPool ω A) (f : σ → Error × σ) (s : σ) : σ :=
  withRetryLoop f p.p.config.MaxConns s

/-- `RetryPool.Exec`. The closure captures `tag`, `err` and the world. -/
def RetryPool.Exec {ω A : Type} (p : RetryPool ω A) (ctx : Context) (args : A) (w : ω) :
    (CommandTag × Error) × ω :=
  let tag : CommandTag := []
  let err : Error := []
  let st := p.withRetry (fun st : CommandTag × Error × ω =>
    let r := p.p.Exec ctx args st.2.2
    (r.1.2, (r.1.1, r.1.2, r.2))) (tag, err, w)
  ((st.1, st.2.1), st.2.2)

/-- `RetryPool.Query`. -/
def RetryPool.Query {ω A : Type} (p : RetryPool ω A) (ctx : Context) (args : A) (w : ω) :
    (Rows × Error) × ω :=
  let rows : Rows := none
  let err : Error := []
  let st := p.withRetry (fun st : Rows × Error × ω =>
    let r := p.p.Query ctx args st.2.2
    (r.1.2, (r.1.1, r.1.2, r.2))) (rows, err, w)
  ((st.1, st.2.1), st.2.2)

/-- `RetryPool.QueryFunc`. -/
def RetryPool.QueryFunc {ω A : Type} (p : RetryPool ω A) (ctx : Context) (args : A) (w : ω) :
    (CommandTag × Error) × ω :=
  let tag : CommandTag := []
  let err : Error := []
  let st := p.withRetry (fun st : CommandTag × Error × ω =>
    let r := p.p.QueryFunc ctx args st.2.2
    (r.1.2, (r.1.1, r.1.2, r.2))) (tag, err, w)
  ((st.1, st.2.1), st.2.2)

/-- `RetryPool.Begin`. -/
def RetryPool.Begin {ω A : Type} (p : RetryPool ω A) (ctx : Context) (w : ω) :
    (TxHandle × Error) × ω :=
  let tx : TxHandle := none
  let err : Error := []
  let st := p.withRetry (fun st : TxHandle × Error × ω =>
    let r := p.p.Begin ctx st.2.2
    (r.1.2, (r.1.1, r.1.2, r.2))) (tx, err, w)
  ((st.1, st.2.1), st.2.2)

/-- `RetryPool.BeginTx`. -/
def RetryPool.BeginTx {ω A : Type} (p : RetryPool ω A) (ctx : Context) (txOptions : A) (w : ω) :
    (TxHandle × Error) × ω :=
  let tx : TxHandle := none
  let err : Error := []
  let st := p.withRetry (fun st : TxHandle × Error × ω =>
    let r := p.p.BeginTx ctx txOptions st.2.2
    (r.1.2, (r.1.1, r.1.2, r.2))) (tx, err, w)
  ((st.1, st.2.1), st.2.2)

/-- `RetryPool.BeginFunc`. -/
def RetryPool.BeginFunc {ω A : Type} (p : RetryPool ω A) (ctx : Context) (f : A) (w : ω) :
    Error × ω :=
  let err : Error := []
  let st := p.withRetry (fun st : Error × ω =>
    let r := p.p.BeginFunc ctx f st.2
    (r.1, (r.1, r.2))) (err, w)
  (st.1, st.2)

/-- `RetryPool.BeginTxFunc`. -/
def RetryPool.BeginTxFunc {ω A : Type} (p : RetryPool ω A) (ctx : Context) (args : A) (w : ω) :
    Error × ω :=
  let err : Error := []
  let st := p.withRetry (fun st : Error × ω =>
    let r := p.p.BeginTxFunc ctx args st.2
    (r.1, (r.1, r.2))) (err, w)
  (st.1, st.2)

/-- `RetryPool.CopyFrom`. -/
def RetryPool.CopyFrom {ω A : Type} (p : RetryPool ω A) (ctx : Context) (args : A) (w : ω) :
    (Int × Error) × ω :=
  let r0 : Int := 0
  let err : Error := []
  let st := p.withRetry (fun st : Int × Error × ω =>
    let r := p.p.CopyFrom ctx args st.2.2
    (r.1.2, (r.1.1, r.1.2, r.2))) (r0, err, w)
  ((st.1, st.2.1), st.2.2)

/-- `RetryPool.Ping`. -/
def RetryPool.Ping {ω A : Type} (p : RetryPool ω A) (ctx : Context) (w : ω) : Error × ω :=
  let err : Error := []
  let st := p.withRetry (fun st : Error × ω =>
    let r := p.p.Ping ctx st.2
    (r.1, (r.1, r.2))) (err, w)
  (st.1, st.2)

/-! ## Tx -/

/-- The cleanup-intent flags of the leased connection's `*pgconn.PgConn`. -/
structure PgConn where
  needsCleanup : Bool
  cleanupWithoutReset : Bool
deriving DecidableEq, Repr

/-- Modelled from the spec: `PgConn.NeedsCleanup`, the reader of the `needsCleanup` flag. -/
def PgConn.NeedsCleanup (c : PgConn) : Bool :=
  c.needsCleanup

/-- Modelled from the spec: `PgConn.SetCleanupWithoutReset`, the writer of the
`cleanupWithoutReset` flag. -/
def PgConn.SetCleanupWithoutReset (c : PgConn) (b : Bool) : PgConn :=
  { c with cleanupWithoutReset := b }

/-- Modelled from the spec: `PgConn.SetNeedsCleanup`, which marks the connection as requiring
a forced resynchronization pass. -/
def PgConn.SetNeedsCleanup (c : PgConn) : PgConn :=
  { c with needsCleanup := true }

/-- A pooled `*Conn`: its `PgConn` and the number of times `Release` was called on it. -/
structure Conn where
  pgConn : PgConn
  released : Nat
deriving DecidableEq, Repr

/-- Modelled from the spec: `Conn.Release`, which hands the lease back to the pool. The
cleanup flags are read only by the pool's later reclaim step, so the call is recorded and the
flags are left as the Tx set them. -/
def Conn.Release (c : Conn) : Conn :=
  { c with released := c.released + 1 }

/-- The connections a `*Conn` pointer can refer to, by address. -/
abbrev Heap := Nat → Conn

/-- The driver transaction handle `pgx.Tx` behind a `Tx`: an external collaborator with its
own state `δ`, whose finalize calls return an error and move that state. -/
structure PgxTx (δ : Type) where
  state : δ
  commit : Context → δ → Error × δ
  rollback : Context → δ → Error × δ

/-- The driver call `tx.t.Commit(ctx)`. -/
def PgxTx.Commit {δ : Type} (t : PgxTx δ) (ctx : Context) : Error × PgxTx δ :=
  ((t.commit ctx t.state).1, { t with state := (t.commit ctx t.state).2 })

/-- The driver call `tx.t.Rollback(ctx)`. -/
def PgxTx.Rollback {δ : Type} (t : PgxTx δ) (ctx : Context) : Error × PgxTx δ :=
  ((t.rollback ctx t.state).1, { t with state := (t.rollback ctx t.state).2 })

/-- `pgxpool.Tx`: the driver handle `t` and the lease `c` (a `*Conn`, `none` for nil). -/
structure Tx (δ : Type) where
  t : PgxTx δ
  c : Option Nat

/-- `Tx.Commit`: returns the error, the Tx after the call and the heap after the call. -/
def Tx.Commit {δ : Type} (tx : Tx δ) (ctx : Context) (h : Heap) : Error × Tx δ × Heap :=
  let r := tx.t.Commit ctx
  let err := r.1
  let ret : Error := if errors.Is err pgconn.ErrLockCleanupConn then [] else err
  match tx.c with
  | some a =>
    let conn := (h a).pgConn
    let conn :=
      if !err.isEmpty && errors.Is err ctx.Err then
        let conn :=
          if errors.AsCtxAlreadyDone err && !conn.NeedsCleanup then
            conn.SetCleanupWithoutReset true
          else conn
        conn.SetNeedsCleanup
      else conn
    let h := Function.update h a (Conn.Release { h a with pgConn := conn })
    (ret, { t := r.2, c := none }, h)
  | none => (ret, { tx with t := r.2 }, h)

/-- `Tx.Rollback`: returns the error, the Tx after the call and the heap after the call. -/
def Tx.Rollback {δ : Type} (tx : Tx δ) (ctx : Context) (h : Heap) : Error × Tx δ × Heap :=
  let r := tx.t.Rollback ctx
  let err := r.1
  let ret : Error := if errors.Is err pgconn.ErrLockCleanupConn then [] else err
  match tx.c with
  | some a =>
    let conn := (h a).pgConn
    let conn :=
      if !err.isEmpty && errors.Is err ctx.Err then
        let conn :=
          if errors.AsCtxAlreadyDone err && !conn.NeedsCleanup then
            conn.SetCleanupWithoutReset true
          else conn
        conn.SetNeedsCleanup
      else conn
    let h := Function.update h a (Conn.Release { h a with pgConn := conn })
    (ret, { t := r.2, c := none }, h)
  | none => (ret, { tx with t := r.2 }, h)

/-- A finalize call made by the application on a Tx. -/
inductive Call where
  | commit (ctx : Context)
  | rollback (ctx : Context)
deriving DecidableEq, Repr

/-- Perform one finalize call; the returned error is dropped. -/
def Call.exec {δ : Type} (call : Call) (s : Tx δ × Heap) : Tx δ × Heap :=
  match call with
  | .commit ctx => (s.1.Commit ctx s.2).2
  | .rollback ctx => (s.1.Rollback ctx s.2).2

/-- Perform a sequence of finalize calls on the same Tx, in order. -/
def runCalls {δ : Type} (calls : List Call) (s : Tx δ × Heap) : Tx δ × Heap :=
  calls.foldl (fun s call => call.exec s) s

/-! ## Test doubles -/

/-- The closure of `TestRetryFailure`, generalised to return `errs i` on its `i`-th
invocation (counted from 0): it increments `counter` and stores the error in `err`. -/
def mockOp (errs : Nat → Error) (st : Nat × Error) : Error × (Nat × Error) :=
  (errs st.1, (st.1 + 1, errs st.1))

/-- The outcome of the `i`-th invocation (counted from 0) of each pool operation. -/
structure Script where
  Exec : Nat → CommandTag × Error
  Query : Nat → Rows × Error
  QueryFunc : Nat → CommandTag × Error
  Begin : Nat → TxHandle × Error
  BeginTx : Nat → TxHandle × Error
  BeginFunc : Nat → Error
  BeginTxFunc : Nat → Error
  CopyFrom : Nat → Int × Error
  Ping : Nat → Error

/-- A pool of capacity `N` that follows a script. Its world state is the number of pool
invocations made so far. -/
def scriptedPool (N : Int) (sc : Script) : RetryPool Nat Unit where
  p :=
    { config := { MaxConns := N }
      Exec := fun _ _ n => (sc.Exec n, n + 1)
      Query := fun _ _ n => (sc.Query n, n + 1)
      QueryFunc := fun _ _ n => (sc.QueryFunc n, n + 1)
      Begin := fun _ n => (sc.Begin n, n + 1)
      BeginTx := fun _ _ n => (sc.BeginTx n, n + 1)
      BeginFunc := fun _ _ n => (sc.BeginFunc n, n + 1)
      BeginTxFunc := fun _ _ n => (sc.BeginTxFunc n, n + 1)
      CopyFrom := fun _ _ n => (sc.CopyFrom n, n + 1)
      Ping := fun _ n => (sc.Ping n, n + 1) }

/-- Whether the retry loop stops on this attempt outcome: success, or an error that is not
safe to retry. -/
def stops (err : Error) : Bool :=
  err.isEmpty || !safeToRetry err

/-- The captured state of a result-returning wrapper's closure over a scripted pool after `n`
invocations: the zero value and nil error before the first one. -/
def valSeq {R : Type} (zero : R) (out : Nat → R × Error) : Nat → R × Error × Nat
  | 0 => (zero, [], 0)
  | n + 1 => ((out n).1, (out n).2, n + 1)

/-- The captured state of an error-only wrapper's closure over a scripted pool after `n`
invocations. -/
def errSeq (out : Nat → Error) : Nat → Error × Nat
  | 0 => ([], 0)
  | n + 1 => (out n, n + 1)

/-- The captured state of the test closure after `n` invocations. -/
def mockSeq (errs : Nat → Error) : Nat → Nat × Error
  | 0 => (0, [])
  | n + 1 => (n + 1, errs n)

/-- The closure of a result-returning wrapper over a scripted pool with outcomes `out`. -/
def valStep {R : Type} (out : Nat → R × Error) (st : R × Error × Nat) :
    Error × (R × Error × Nat) :=
  ((out st.2.2).2, ((out st.2.2).1, (out st.2.2).2, st.2.2 + 1))

/-- The closure of an error-only wrapper over a scripted pool with outcomes `out`. -/
def errStep (out : Nat → Error) (st : Error × Nat) : Error × (Error × Nat) :=
  (out st.2, (out st.2, st.2 + 1))

/-- Attempt `k` (counted from 1) is the first whose outcome stops the retry loop: every
earlier attempt returned a safe-to-retry error, and attempt `k` returned nil or an error
that is not safe to retry. -/
def FirstStop (errs : Nat → Error) (k : Nat) : Prop :=
  (∀ j, j + 1 < k → errs j ≠ [] ∧ safeToRetry (errs j) = true) ∧
    (errs (k - 1) = [] ∨ safeToRetry (errs (k - 1)) = false)

/-- How a result-returning wrapper returns its captured variables. -/
def packVal {R : Type} (st : R × Error × Nat) : (R × Error) × Nat :=
  ((st.1, st.2.1), st.2.2)

/-- The error of `TestRetryFailure` (`mockSafeToRetryErr`): a single node whose
`SafeToRetry()` returns true. -/
def errFake : Error :=
  [{ ident := 10, ctxAlreadyDone := false, safeToRetry := some true }]

/-- An error with no marker at all, unrelated to any context or sentinel. -/
def errOther : Error :=
  [{ ident := 11, ctxAlreadyDone := false, safeToRetry := none }]

/-- A `*pgconn.СontextAlreadyDoneError` wrapping `context.Canceled`. -/
def errCtxAlreadyDone : Error :=
  { ident := 12, ctxAlreadyDone := true, safeToRetry := some true } :: context.Canceled

/-- A `*pgconn.СontextAlreadyDoneError` whose cause chain passes through the
cleanup-lock-contention sentinel before reaching `context.Canceled`. -/
def errCtxAlreadyDoneLocked : Error :=
  { ident := 13, ctxAlreadyDone := true, safeToRetry := none } ::
    (pgconn.ErrLockCleanupConn ++ context.Canceled)

/-- A script in which every operation's `i`-th invocation fails with `errs i` and carries a
result derived from `i`. -/
def scriptOf (errs : Nat → Error) : Script where
  Exec := fun i => ([i + 1], errs i)
  Query := fun i => (some (i + 1), errs i)
  QueryFunc := fun i => ([i + 1], errs i)
  Begin := fun i => (some (i + 1), errs i)
  BeginTx := fun i => (some (i + 1), errs i)
  BeginFunc := errs
  BeginTxFunc := errs
  CopyFrom := fun i => ((i : Int) + 1, errs i)
  Ping := errs

/-- Outcomes that fail safely once and then succeed. -/
def failOnceThenSucceed (i : Nat) : Error :=
  if i = 0 then errFake else []

/-- A driver handle whose finalize calls always return `e`. -/
def constDriver (e : Error) : PgxTx Unit where
  state := ()
  commit := fun _ _ => (e, ())
  rollback := fun _ _ => (e, ())

/-- A heap in which every connection has the given flags and was never released. -/
def freshHeap (needsCleanup cleanupWithoutReset : Bool) : Heap :=
  fun _ => { pgConn := { needsCleanup := needsCleanup,
                         cleanupWithoutReset := cleanupWithoutReset },
             released := 0 }

/-! ## The retry loop -/

theorem stops_eq_false_iff (err : Error) :
    stops err = false ↔ err ≠ [] ∧ safeToRetry err = true := by
  cases err <;> simp [stops]

theorem stops_eq_true_iff (err : Error) :
    stops err = true ↔ err = [] ∨ safeToRetry err = false := by
  cases err <;> simp [stops]

theorem stops_false_of_safe {err : Error} (h : safeToRetry err = true) : stops err = false := by
  cases err with
  | nil => simp [safeToRetry] at h
  | cons n rest => simp [stops, h]

theorem withRetryLoop_nonpos {σ : Type} (f : σ → Error × σ) (i : Int) (s : σ) (hi : i ≤ 0) :
    withRetryLoop f i s = s := by
  rw [withRetryLoop]
  simp [not_lt.mpr hi]

theorem withRetryLoop_stop {σ : Type} (f : σ → Error × σ) (i : Int) (s : σ) (hi : 0 < i)
    (h : stops (f s).1 = true) : withRetryLoop f i s = (f s).2 := by
  rw [withRetryLoop]
  simp only [stops] at h
  simp [hi, h]

theorem withRetryLoop_retry {σ : Type} (f : σ → Error × σ) (i : Int) (s : σ) (hi : 0 < i)
    (h : stops (f s).1 = false) : withRetryLoop f i s = withRetryLoop f (i - 1) (f s).2 := by
  rw [withRetryLoop]
  simp only [stops] at h
  simp [hi, h]

/-- When the closure's states follow `S` and its errors follow `E`, the loop started after
`n` invocations stops right after the first stopping attempt. -/
theorem loop_first_stop {σ : Type} (f : σ → Error × σ) (S : Nat → σ) (E : Nat → Error)
    (hf : ∀ n, f (S n) = (E n, S (n + 1))) :
    ∀ (k n : Nat) (i : Int), (k : Int) < i → (∀ j, j < k → stops (E (n + j)) = false) →
      stops (E (n + k)) = true → withRetryLoop f i (S n) = S (n + k + 1) := by
  intro k
  induction k with
  | zero =>
    intro n i hi _ hstop
    have h0 : 0 < i := by simpa using hi
    rw [withRetryLoop_stop f i (S n) h0 (by rw [hf]; simpa using hstop), hf]
  | succ k ih =>
    intro n i hi hgo hstop
    have h0 : 0 < i := by push_cast at hi; omega
    have hE : stops (E n) = false := by simpa using hgo 0 (Nat.succ_pos k)
    rw [withRetryLoop_retry f i (S n) h0 (by rw [hf]; exact hE), hf]
    have := ih (n + 1) (i - 1) (by push_cast at hi; omega)
      (fun j hj => by
        have := hgo (j + 1) (Nat.succ_lt_succ hj)
        rwa [show n + (j + 1) = n + 1 + j by omega] at this)
      (by rwa [show n + (k + 1) = n + 1 + k by omega] at hstop)
    simpa [Nat.add_assoc, Nat.add_comm, Nat.add_left_comm] using this

/-- When no attempt stops the loop, it runs exactly as many attempts as the counter allows. -/
theorem loop_exhaust {σ : Type} (f : σ → Error × σ) (S : Nat → σ) (E : Nat → Error)
    (hf : ∀ n, f (S n) = (E n, S (n + 1))) :
    ∀ (m n : Nat), (∀ j, j < m → stops (E (n + j)) = false) →
      withRetryLoop f (m : Int) (S n) = S (n + m) := by
  intro m
  induction m with
  | zero =>
    intro n _
    simpa using withRetryLoop_nonpos f 0 (S n) (le_refl 0)
  | succ m ih =>
    intro n hgo
    have h0 : (0 : Int) < ((m + 1 : Nat) : Int) := by push_cast; omega
    have hE : stops (E n) = false := by simpa using hgo 0 (Nat.succ_pos m)
    rw [withRetryLoop_retry f _ (S n) h0 (by rw [hf]; exact hE), hf]
    have := ih (n + 1) (fun j hj => by
      have := hgo (j + 1) (Nat.succ_lt_succ hj)
      rwa [show n + (j + 1) = n + 1 + j by omega] at this)
    have hc : (((m + 1 : Nat) : Int) - 1) = (m : Int) := by push_cast; omega
    rw [hc, this]
    congr 1
    omega

/-- Whatever the outcomes are, the loop makes at most `max i 0` attempts. -/
theorem loop_bound {σ : Type} (f : σ → Error × σ) (S : Nat → σ) (E : Nat → Error)
    (hf : ∀ n, f (S n) = (E n, S (n + 1))) :
    ∀ (m : Nat) (i : Int) (n : Nat), i ≤ (m : Int) →
      ∃ k, k ≤ m ∧ withRetryLoop f i (S n) = S (n + k) := by
  intro m
  induction m with
  | zero =>
    intro i n hi
    exact ⟨0, le_refl 0, by simpa using withRetryLoop_nonpos f i (S n) (by simpa using hi)⟩
  | succ m ih =>
    intro i n hi
    by_cases h0 : 0 < i
    · cases hE : stops (E n) with
      | true =>
        refine ⟨1, by omega, ?_⟩
        rw [withRetryLoop_stop f i (S n) h0 (by rw [hf]; exact hE), hf]
      | false =>
        obtain ⟨k, hk, hrun⟩ := ih (i - 1) (n + 1) (by push_cast at hi; omega)
        refine ⟨k + 1, by omega, ?_⟩
        rw [withRetryLoop_retry f i (S n) h0 (by rw [hf]; exact hE), hf, hrun]
        congr 1
        omega
    · exact ⟨0, Nat.zero_le _, by simpa using withRetryLoop_nonpos f i (S n) (not_lt.mp h0)⟩

theorem mockOp_seq (errs : Nat → Error) (n : Nat) :
    mockOp errs (mockSeq errs n) = (errs n, mockSeq errs (n + 1)) := by
  cases n <;> rfl

theorem valStep_seq {R : Type} (zero : R) (out : Nat → R × Error) (n : Nat) :
    valStep out (valSeq zero out n) = ((out n).2, valSeq zero out (n + 1)) := by
  cases n <;> rfl

theorem errStep_seq (out : Nat → Error) (n : Nat) :
    errStep out (errSeq out n) = (out n, errSeq out (n + 1)) := by
  cases n <;> rfl

theorem val_first_stop {R : Type} (zero : R) (out : Nat → R × Error) (N k : Nat)
    (hk1 : 1 ≤ k) (hkN : k ≤ N) (h : FirstStop (fun i => (out i).2) k) :
    packVal (withRetryLoop (valStep out) (N : Int) (zero, [], 0)) = (out (k - 1), k) := by
  obtain ⟨k, rfl⟩ : ∃ k0, k = k0 + 1 := ⟨k - 1, by omega⟩
  have hrun := loop_first_stop (valStep out) (valSeq zero out) (fun n => (out n).2)
    (valStep_seq zero out) k 0 (N : Int) (by exact_mod_cast hkN)
    (fun j hj => by
      have := h.1 j (by omega)
      simpa using (stops_eq_false_iff _).2 this)
    (by simpa using (stops_eq_true_iff _).2 h.2)
  have h0 : valSeq zero out 0 = (zero, [], 0) := rfl
  rw [h0] at hrun
  rw [hrun]
  simp [valSeq, packVal]

theorem val_exhaust {R : Type} (zero : R) (out : Nat → R × Error) (N : Nat) (hN : 1 ≤ N)
    (h : ∀ i, i < N → safeToRetry (out i).2 = true) :
    packVal (withRetryLoop (valStep out) (N : Int) (zero, [], 0)) = (out (N - 1), N) := by
  obtain ⟨N, rfl⟩ : ∃ N0, N = N0 + 1 := ⟨N - 1, by omega⟩
  have hrun := loop_exhaust (valStep out) (valSeq zero out) (fun n => (out n).2)
    (valStep_seq zero out) (N + 1) 0
    (fun j hj => by simpa using stops_false_of_safe (h j hj))
  have h0 : valSeq zero out 0 = (zero, [], 0) := rfl
  rw [h0] at hrun
  rw [hrun]
  simp [valSeq, packVal]

theorem val_bound {R : Type} (zero : R) (out : Nat → R × Error) (N : Int) :
    (((packVal (withRetryLoop (valStep out) N (zero, [], 0))).2 : Nat) : Int) ≤ max N 0 := by
  obtain ⟨k, hk, hrun⟩ := loop_bound (valStep out) (valSeq zero out) (fun n => (out n).2)
    (valStep_seq zero out) N.toNat N 0 (Int.self_le_toNat N)
  have h0 : valSeq zero out 0 = (zero, [], 0) := rfl
  rw [h0] at hrun
  rw [hrun]
  have hsnd : (packVal (valSeq zero out (0 + k))).2 = k := by
    cases k <;> simp [valSeq, packVal]
  rw [hsnd]
  have : ((k : Nat) : Int) ≤ (N.toNat : Int) := by exact_mod_cast hk
  rw [Int.toNat_eq_max] at this
  exact this

theorem err_first_stop (out : Nat → Error) (N k : Nat)
    (hk1 : 1 ≤ k) (hkN : k ≤ N) (h : FirstStop out k) :
    withRetryLoop (errStep out) (N : Int) ([], 0) = (out (k - 1), k) := by
  obtain ⟨k, rfl⟩ : ∃ k0, k = k0 + 1 := ⟨k - 1, by omega⟩
  have hrun := loop_first_stop (errStep out) (errSeq out) out (errStep_seq out) k 0 (N : Int)
    (by exact_mod_cast hkN)
    (fun j hj => by
      have := h.1 j (by omega)
      simpa using (stops_eq_false_iff _).2 this)
    (by simpa using (stops_eq_true_iff _).2 h.2)
  have h0 : errSeq out 0 = ([], 0) := rfl
  rw [h0] at hrun
  rw [hrun]
  simp [errSeq]

theorem err_exhaust (out : Nat → Error) (N : Nat) (hN : 1 ≤ N)
    (h : ∀ i, i < N → safeToRetry (out i) = true) :
    withRetryLoop (errStep out) (N : Int) ([], 0) = (out (N - 1), N) := by
  obtain ⟨N, rfl⟩ : ∃ N0, N = N0 + 1 := ⟨N - 1, by omega⟩
  have hrun := loop_exhaust (errStep out) (errSeq out) out (errStep_seq out) (N + 1) 0
    (fun j hj => by simpa using stops_false_of_safe (h j hj))
  have h0 : errSeq out 0 = ([], 0) := rfl
  rw [h0] at hrun
  rw [hrun]
  simp [errSeq]

theorem err_bound (out : Nat → Error) (N : Int) :
    (((withRetryLoop (errStep out) N ([], 0)).2 : Nat) : Int) ≤ max N 0 := by
  obtain ⟨k, hk, hrun⟩ := loop_bound (errStep out) (errSeq out) out (errStep_seq out) N.toNat N 0
    (Int.self_le_toNat N)
  have h0 : errSeq out 0 = ([], 0) := rfl
  rw [h0] at hrun
  rw [hrun]
  have hsnd : (errSeq out (0 + k)).2 = k := by
    cases k <;> simp [errSeq]
  rw [hsnd]
  have : ((k : Nat) : Int) ≤ (N.toNat : Int) := by exact_mod_cast hk
  rw [Int.toNat_eq_max] at this
  exact this

theorem mock_exhaust (errs : Nat → Error) (N : Nat) (hN : 1 ≤ N)
    (h : ∀ i, i < N → safeToRetry (errs i) = true) :
    withRetryLoop (mockOp errs) (N : Int) (0, []) = (N, errs (N - 1)) := by
  obtain ⟨N, rfl⟩ : ∃ N0, N = N0 + 1 := ⟨N - 1, by omega⟩
  have hrun := loop_exhaust (mockOp errs) (mockSeq errs) errs (mockOp_seq errs) (N + 1) 0
    (fun j hj => by simpa using stops_false_of_safe (h j hj))
  have h0 : mockSeq errs 0 = (0, []) := rfl
  rw [h0] at hrun
  rw [hrun]
  simp [mockSeq]

theorem mock_bound (errs : Nat → Error) (N : Int) :
    (((withRetryLoop (mockOp errs) N (0, [])).1 : Nat) : Int) ≤ max N 0 := by
  obtain ⟨k, hk, hrun⟩ := loop_bound (mockOp errs) (mockSeq errs) errs (mockOp_seq errs) N.toNat N 0
    (Int.self_le_toNat N)
  have h0 : mockSeq errs 0 = (0, []) := rfl
  rw [h0] at hrun
  rw [hrun]
  have hfst : (mockSeq errs (0 + k)).1 = k := by
    cases k <;> simp [mockSeq]
  rw [hfst]
  have : ((k : Nat) : Int) ≤ (N.toNat : Int) := by exact_mod_cast hk
  rw [Int.toNat_eq_max] at this
  exact this

/-- C1: for every capacity `N ≥ 1` and every operation whose first `N` attempts all return a
safe-to-retry error, `withRetry` invokes the operation exactly `N` times and the error left
in the caller's captured variable is the one returned by the `N`-th invocation; the same
holds through the `Exec` and `Ping` wrappers, which return the `N`-th outcome. -/
theorem C1_retry_exhausts_capacity (N : Nat) (hN : 1 ≤ N) (sc : Script) (ctx : Context)
    (errs : Nat → Error) :
    ((∀ i, i < N → safeToRetry (errs i) = true) →
        (scriptedPool N sc).withRetry (mockOp errs) (0, []) = (N, errs (N - 1))) ∧
      ((∀ i, i < N → safeToRetry (sc.Exec i).2 = true) →
        (scriptedPool N sc).Exec ctx () 0 = (sc.Exec (N - 1), N)) ∧
      ((∀ i, i < N → safeToRetry (sc.Ping i) = true) →
        (scriptedPool N sc).Ping ctx 0 = (sc.Ping (N - 1), N)) :=
  ⟨fun h => mock_exhaust errs N hN h,
   fun h => val_exhaust [] sc.Exec N hN h,
   fun h => err_exhaust sc.Ping N hN h⟩

/-- Witness of C1 at capacity 3 with the error of `TestRetryFailure` on every attempt. -/
theorem C1_retry_exhausts_capacity_witness :
    1 ≤ 3 ∧
      (scriptedPool 3 (scriptOf (fun _ => errFake))).withRetry (mockOp (fun _ => errFake)) (0, [])
        = (3, errFake) ∧
      (scriptedPool 3 (scriptOf (fun _ => errFake))).Exec ⟨[]⟩ () 0 = (([3], errFake), 3) ∧
      (scriptedPool 3 (scriptOf (fun _ => errFake))).Ping ⟨[]⟩ 0 = (errFake, 3) :=
  ⟨by decide,
   (C1_retry_exhausts_capacity 3 (by decide) (scriptOf (fun _ => errFake)) ⟨[]⟩
      (fun _ => errFake)).1 (fun _ _ => rfl),
   (C1_retry_exhausts_capacity 3 (by decide) (scriptOf (fun _ => errFake)) ⟨[]⟩
      (fun _ => errFake)).2.1 (fun _ _ => rfl),
   (C1_retry_exhausts_capacity 3 (by decide) (scriptOf (fun _ => errFake)) ⟨[]⟩
      (fun _ => errFake)).2.2 (fun _ _ => rfl)⟩

/-- C2: for every capacity `N` and every script of attempt outcomes, if attempt `k` with
`1 ≤ k ≤ N` is the first whose outcome is success or an error that is not safe to retry,
then each retried wrapper invokes the pool exactly `k` times and returns exactly the
result and error of attempt `k`. -/
theorem C2_stops_at_first_final_outcome (N k : Nat) (hk1 : 1 ≤ k) (hkN : k ≤ N) (sc : Script)
    (ctx : Context) :
    (FirstStop (fun i => (sc.Exec i).2) k →
        (scriptedPool N sc).Exec ctx () 0 = (sc.Exec (k - 1), k)) ∧
      (FirstStop (fun i => (sc.Query i).2) k →
        (scriptedPool N sc).Query ctx () 0 = (sc.Query (k - 1), k)) ∧
      (FirstStop (fun i => (sc.QueryFunc i).2) k →
        (scriptedPool N sc).QueryFunc ctx () 0 = (sc.QueryFunc (k - 1), k)) ∧
      (FirstStop (fun i => (sc.CopyFrom i).2) k →
        (scriptedPool N sc).CopyFrom ctx () 0 = (sc.CopyFrom (k - 1), k)) ∧
      (FirstStop sc.Ping k →
        (scriptedPool N sc).Ping ctx 0 = (sc.Ping (k - 1), k)) ∧
      (FirstStop (fun i => (sc.Begin i).2) k →
        (scriptedPool N sc).Begin ctx 0 = (sc.Begin (k - 1), k)) ∧
      (FirstStop (fun i => (sc.BeginTx i).2) k →
        (scriptedPool N sc).BeginTx ctx () 0 = (sc.BeginTx (k - 1), k)) ∧
      (FirstStop sc.BeginFunc k →
        (scriptedPool N sc).BeginFunc ctx () 0 = (sc.BeginFunc (k - 1), k)) ∧
      (FirstStop sc.BeginTxFunc k →
        (scriptedPool N sc).BeginTxFunc ctx () 0 = (sc.BeginTxFunc (k - 1), k)) :=
  ⟨fun h => val_first_stop [] sc.Exec N k hk1 hkN h,
   fun h => val_first_stop none sc.Query N k hk1 hkN h,
   fun h => val_first_stop [] sc.QueryFunc N k hk1 hkN h,
   fun h => val_first_stop 0 sc.CopyFrom N k hk1 hkN h,
   fun h => err_first_stop sc.Ping N k hk1 hkN h,
   fun h => val_first_stop none sc.Begin N k hk1 hkN h,
   fun h => val_first_stop none sc.BeginTx N k hk1 hkN h,
   fun h => err_first_stop sc.BeginFunc N k hk1 hkN h,
   fun h => err_first_stop sc.BeginTxFunc N k hk1 hkN h⟩

theorem firstStop_failOnceThenSucceed : FirstStop failOnceThenSucceed 2 := by
  refine ⟨fun j hj => ?_, Or.inl rfl⟩
  have hj0 : j = 0 := by omega
  subst hj0
  exact ⟨by decide, by decide⟩

/-- Witness of C2 at capacity 3: one safe-to-retry failure, then success on attempt 2. -/
theorem C2_stops_at_first_final_outcome_witness :
    1 ≤ 2 ∧ 2 ≤ 3 ∧
      (scriptedPool 3 (scriptOf failOnceThenSucceed)).Exec ⟨[]⟩ () 0 = (([2], []), 2) ∧
      (scriptedPool 3 (scriptOf failOnceThenSucceed)).Query ⟨[]⟩ () 0 = ((some 2, []), 2) ∧
      (scriptedPool 3 (scriptOf failOnceThenSucceed)).CopyFrom ⟨[]⟩ () 0 = ((2, []), 2) ∧
      (scriptedPool 3 (scriptOf failOnceThenSucceed)).Ping ⟨[]⟩ 0 = ([], 2) ∧
      (scriptedPool 3 (scriptOf failOnceThenSucceed)).Begin ⟨[]⟩ 0 = ((some 2, []), 2) :=
  ⟨by decide, by decide,
   (C2_stops_at_first_final_outcome 3 2 (by decide) (by decide)
      (scriptOf failOnceThenSucceed) ⟨[]⟩).1 firstStop_failOnceThenSucceed,
   (C2_stops_at_first_final_outcome 3 2 (by decide) (by decide)
      (scriptOf failOnceThenSucceed) ⟨[]⟩).2.1 firstStop_failOnceThenSucceed,
   (C2_stops_at_first_final_outcome 3 2 (by decide) (by decide)
      (scriptOf failOnceThenSucceed) ⟨[]⟩).2.2.2.1 firstStop_failOnceThenSucceed,
   (C2_stops_at_first_final_outcome 3 2 (by decide) (by decide)
      (scriptOf failOnceThenSucceed) ⟨[]⟩).2.2.2.2.1 firstStop_failOnceThenSucceed,
   (C2_stops_at_first_final_outcome 3 2 (by decide) (by decide)
      (scriptOf failOnceThenSucceed) ⟨[]⟩).2.2.2.2.2.1 firstStop_failOnceThenSucceed⟩

/-- C6: `safeToRetry` is total, and it returns true exactly when some node of the cause
chain (the error itself or a cause reached by unwrapping) implements the safe-to-retry
marker with value true; in particular it returns false for the nil error. -/
theorem C6_safeToRetry_iff_some_node_certifies (err : Error) :
    (safeToRetry err = true ↔ ∃ n, n ∈ err ∧ n.safeToRetry = some true) ∧
      safeToRetry [] = false := by
  refine ⟨?_, rfl⟩
  induction err with
  | nil => simp [safeToRetry]
  | cons n rest ih =>
    rw [safeToRetry]
    cases hn : n.safeToRetry with
    | none => simp [pgconn.SafeToRetry, hn, ih]
    | some b => cases b <;> simp [pgconn.SafeToRetry, hn, ih]

/-- C10: when the configured capacity is zero or negative the retry loop never invokes the
operation, so every retried wrapper returns its zero-value result with a nil error and
leaves the pool untouched; and for every capacity `N` the number of invocations is at most
`max N 0`. -/
theorem C10_nonpositive_capacity_never_invokes {ω A σ : Type} (p : RetryPool ω A)
    (hcap : p.p.config.MaxConns ≤ 0) (f : σ → Error × σ) (s : σ) (ctx : Context) (args : A)
    (w : ω) (N : Int) (sc : Script) (errs : Nat → Error) :
    (p.withRetry f s = s ∧
      p.Exec ctx args w = (([], []), w) ∧
      p.Query ctx args w = ((none, []), w) ∧
      p.QueryFunc ctx args w = (([], []), w) ∧
      p.CopyFrom ctx args w = ((0, []), w) ∧
      p.Ping ctx w = ([], w) ∧
      p.Begin ctx w = ((none, []), w) ∧
      p.BeginTx ctx args w = ((none, []), w) ∧
      p.BeginFunc ctx args w = ([], w) ∧
      p.BeginTxFunc ctx args w = ([], w)) ∧
    ((((scriptedPool N sc).withRetry (mockOp errs) (0, [])).1 : Int) ≤ max N 0 ∧
      ((((scriptedPool N sc).Exec ctx () 0).2 : Nat) : Int) ≤ max N 0 ∧
      ((((scriptedPool N sc).Query ctx () 0).2 : Nat) : Int) ≤ max N 0 ∧
      ((((scriptedPool N sc).QueryFunc ctx () 0).2 : Nat) : Int) ≤ max N 0 ∧
      ((((scriptedPool N sc).CopyFrom ctx () 0).2 : Nat) : Int) ≤ max N 0 ∧
      ((((scriptedPool N sc).Ping ctx 0).2 : Nat) : Int) ≤ max N 0 ∧
      ((((scriptedPool N sc).Begin ctx 0).2 : Nat) : Int) ≤ max N 0 ∧
      ((((scriptedPool N sc).BeginTx ctx () 0).2 : Nat) : Int) ≤ max N 0 ∧
      ((((scriptedPool N sc).BeginFunc ctx () 0).2 : Nat) : Int) ≤ max N 0 ∧
      ((((scriptedPool N sc).BeginTxFunc ctx () 0).2 : Nat) : Int) ≤ max N 0) := by
  refine ⟨⟨?_, ?_, ?_, ?_, ?_, ?_, ?_, ?_, ?_, ?_⟩,
    mock_bound errs N, val_bound [] sc.Exec N, val_bound none sc.Query N,
    val_bound [] sc.QueryFunc N, val_bound 0 sc.CopyFrom N, err_bound sc.Ping N,
    val_bound none sc.Begin N, val_bound none sc.BeginTx N, err_bound sc.BeginFunc N,
    err_bound sc.BeginTxFunc N⟩
  · exact withRetryLoop_nonpos f _ s hcap
  · simp only [RetryPool.Exec, RetryPool.withRetry, withRetryLoop_nonpos _ _ _ hcap]
  · simp only [RetryPool.Query, RetryPool.withRetry, withRetryLoop_nonpos _ _ _ hcap]
  · simp only [RetryPool.QueryFunc, RetryPool.withRetry, withRetryLoop_nonpos _ _ _ hcap]
  · simp only [RetryPool.CopyFrom, RetryPool.withRetry, withRetryLoop_nonpos _ _ _ hcap]
  · simp only [RetryPool.Ping, RetryPool.withRetry, withRetryLoop_nonpos _ _ _ hcap]
  · simp only [RetryPool.Begin, RetryPool.withRetry, withRetryLoop_nonpos _ _ _ hcap]
  · simp only [RetryPool.BeginTx, RetryPool.withRetry, withRetryLoop_nonpos _ _ _ hcap]
  · simp only [RetryPool.BeginFunc, RetryPool.withRetry, withRetryLoop_nonpos _ _ _ hcap]
  · simp only [RetryPool.BeginTxFunc, RetryPool.withRetry, withRetryLoop_nonpos _ _ _ hcap]

/-- Witness of C10 at capacity 0 (and at capacity -2 for the bound), with operations that
would fail safely forever. -/
theorem C10_nonpositive_capacity_never_invokes_witness :
    (scriptedPool 0 (scriptOf (fun _ => errFake))).p.config.MaxConns ≤ 0 ∧
      (scriptedPool 0 (scriptOf (fun _ => errFake))).withRetry (mockOp (fun _ => errFake))
        (0, []) = (0, []) ∧
      (scriptedPool 0 (scriptOf (fun _ => errFake))).Exec ⟨[]⟩ () 0 = (([], []), 0) ∧
      (scriptedPool 0 (scriptOf (fun _ => errFake))).Ping ⟨[]⟩ 0 = ([], 0) ∧
      (scriptedPool 0 (scriptOf (fun _ => errFake))).Begin ⟨[]⟩ 0 = ((none, []), 0) ∧
      ((((scriptedPool (-2) (scriptOf (fun _ => errFake))).Exec ⟨[]⟩ () 0).2 : Nat) : Int)
        ≤ max (-2) 0 :=
  have h := C10_nonpositive_capacity_never_invokes
    (scriptedPool 0 (scriptOf (fun _ => errFake))) (by decide)
    (mockOp (fun _ => errFake)) (0, []) ⟨[]⟩ () 0 (-2) (scriptOf (fun _ => errFake))
    (fun _ => errFake)
  ⟨by decide, h.1.1, h.1.2.1, h.1.2.2.2.2.2.1, h.1.2.2.2.2.2.2.1, h.2.2.1⟩

/-! ## The finalize protocol -/

theorem Commit_released {δ : Type} (t : PgxTx δ) (a : Nat) (ctx : Context) (h : Heap) :
    (Tx.Commit { t := t, c := some a } ctx h).2.1.c = none ∧
      ((Tx.Commit { t := t, c := some a } ctx h).2.2 a).released = (h a).released + 1 := by
  simp [Tx.Commit, Conn.Release]

theorem Rollback_released {δ : Type} (t : PgxTx δ) (a : Nat) (ctx : Context) (h : Heap) :
    (Tx.Rollback { t := t, c := some a } ctx h).2.1.c = none ∧
      ((Tx.Rollback { t := t, c := some a } ctx h).2.2 a).released = (h a).released + 1 := by
  simp [Tx.Rollback, Conn.Release]

theorem exec_of_no_lease {δ : Type} (call : Call) (s : Tx δ × Heap) (hc : s.1.c = none) :
    (call.exec s).1.c = none ∧ (call.exec s).2 = s.2 := by
  cases call <;> simp [Call.exec, Tx.Commit, Tx.Rollback, hc]

theorem runCalls_of_no_lease {δ : Type} (calls : List Call) :
    ∀ s : Tx δ × Heap, s.1.c = none →
      (runCalls calls s).1.c = none ∧ (runCalls calls s).2 = s.2 := by
  induction calls with
  | nil => intro s hc; exact ⟨hc, rfl⟩
  | cons call rest ih =>
    intro s hc
    have h1 := exec_of_no_lease call s hc
    have h2 := ih (call.exec s) h1.1
    exact ⟨h2.1, h2.2.trans h1.2⟩

/-- C3: on a Tx holding a lease, the first call of any sequence of Commit and Rollback calls
(any contexts, any driver behaviour) releases the leased connection once and clears the
lease; after the whole sequence the lease is still nil and the heap is exactly the heap left
by the first call, so later calls release nothing and change no flag. -/
theorem C3_lease_released_once_by_first_call {δ : Type} (t : PgxTx δ) (a : Nat) (h : Heap)
    (first : Call) (rest : List Call) :
    (first.exec ({ t := t, c := some a }, h)).1.c = none ∧
      ((first.exec ({ t := t, c := some a }, h)).2 a).released = (h a).released + 1 ∧
      (runCalls (first :: rest) ({ t := t, c := some a }, h)).1.c = none ∧
      (runCalls (first :: rest) ({ t := t, c := some a }, h)).2
        = (first.exec ({ t := t, c := some a }, h)).2 := by
  have h1 : (first.exec ({ t := t, c := some a }, h)).1.c = none ∧
      ((first.exec ({ t := t, c := some a }, h)).2 a).released = (h a).released + 1 := by
    cases first with
    | commit ctx => exact Commit_released t a ctx h
    | rollback ctx => exact Rollback_released t a ctx h
  have h2 := runCalls_of_no_lease rest (first.exec ({ t := t, c := some a }, h)) h1.1
  exact ⟨h1.1, h1.2, h2.1, h2.2⟩

/-- C4 as stated fails: with a canceled context and a driver error that is the context's own
cancellation of the already-done kind, a connection that was already flagged `needsCleanup`
keeps `cleanupWithoutReset` unset; and when that error also matches the cleanup-lock
sentinel, Rollback returns nil. -/
theorem C4_counterexample :
    (errors.Is errCtxAlreadyDone context.Canceled = true ∧
      errors.AsCtxAlreadyDone errCtxAlreadyDone = true ∧
      ((Tx.Rollback { t := constDriver errCtxAlreadyDone, c := some 0 } ⟨context.Canceled⟩
        (freshHeap true false)).2.2 0).pgConn.cleanupWithoutReset = false) ∧
    (errors.Is errCtxAlreadyDoneLocked context.Canceled = true ∧
      errors.AsCtxAlreadyDone errCtxAlreadyDoneLocked = true ∧
      (Tx.Rollback { t := constDriver errCtxAlreadyDoneLocked, c := some 0 }
        ⟨context.Canceled⟩ (freshHeap false false)).1 = []) := by
  decide

/-- C4, amended: on a Tx holding a lease, if the context is canceled and the driver's
rollback fails with the context's own cancellation error of the already-done kind, then the
connection is released with `needsCleanup` set, and `cleanupWithoutReset` is set when
`needsCleanup` was not set before the call and keeps its prior value otherwise; the driver
error is non-nil and Rollback returns it, except that it returns nil when that error also
matches the cleanup-lock sentinel. -/
theorem C4_rollback_canceled_before_write {δ : Type} (t : PgxTx δ) (a : Nat) (ctx : Context)
    (h : Heap) (hctx : ctx.Err ≠ [])
    (his : errors.Is (t.Rollback ctx).1 ctx.Err = true)
    (has : errors.AsCtxAlreadyDone (t.Rollback ctx).1 = true) :
    (t.Rollback ctx).1 ≠ [] ∧
      (Tx.Rollback { t := t, c := some a } ctx h).1
        = (if errors.Is (t.Rollback ctx).1 pgconn.ErrLockCleanupConn then []
           else (t.Rollback ctx).1) ∧
      (Tx.Rollback { t := t, c := some a } ctx h).2.1.c = none ∧
      ((Tx.Rollback { t := t, c := some a } ctx h).2.2 a).released = (h a).released + 1 ∧
      ((Tx.Rollback { t := t, c := some a } ctx h).2.2 a).pgConn.needsCleanup = true ∧
      ((Tx.Rollback { t := t, c := some a } ctx h).2.2 a).pgConn.cleanupWithoutReset
        = ((h a).pgConn.cleanupWithoutReset || !(h a).pgConn.needsCleanup) := by
  have hne : (t.Rollback ctx).1 ≠ [] := by
    intro hnil
    rw [hnil] at his
    cases hE : ctx.Err with
    | nil => exact hctx hE
    | cons n rest => rw [hE] at his; simp [errors.Is] at his
  have hemp : (t.Rollback ctx).1.isEmpty = false := by
    cases hE : (t.Rollback ctx).1 with
    | nil => exact absurd hE hne
    | cons n rest => rfl
  refine ⟨hne, rfl, (Rollback_released t a ctx h).1, (Rollback_released t a ctx h).2, ?_, ?_⟩
  · simp [Tx.Rollback, Conn.Release, his, hemp, PgConn.SetNeedsCleanup]
  · cases hn : (h a).pgConn.needsCleanup <;>
      simp [Tx.Rollback, Conn.Release, his, has, hemp, hn, PgConn.SetNeedsCleanup,
        PgConn.SetCleanupWithoutReset, PgConn.NeedsCleanup]

/-- Witness of the amended C4: a fresh connection, a canceled context and an already-done
error wrapping `context.Canceled`. -/
theorem C4_rollback_canceled_before_write_witness :
    (⟨context.Canceled⟩ : Context).Err ≠ [] ∧
      errors.Is ((constDriver errCtxAlreadyDone).Rollback ⟨context.Canceled⟩).1
        (⟨context.Canceled⟩ : Context).Err = true ∧
      errors.AsCtxAlreadyDone ((constDriver errCtxAlreadyDone).Rollback ⟨context.Canceled⟩).1
        = true ∧
      (Tx.Rollback { t := constDriver errCtxAlreadyDone, c := some 0 } ⟨context.Canceled⟩
        (freshHeap false false)).1 = errCtxAlreadyDone ∧
      ((Tx.Rollback { t := constDriver errCtxAlreadyDone, c := some 0 } ⟨context.Canceled⟩
        (freshHeap false false)).2.2 0) = ⟨⟨true, true⟩, 1⟩ :=
  have h := C4_rollback_canceled_before_write (constDriver errCtxAlreadyDone) 0
    ⟨context.Canceled⟩ (freshHeap false false) (by decide) (by decide) (by decide)
  ⟨by decide, by decide, by decide, h.2.1, by
    have h4 := h.2.2.2.1
    have h5 := h.2.2.2.2.1
    have h6 := h.2.2.2.2.2
    generalize (Tx.Rollback { t := constDriver errCtxAlreadyDone, c := some 0 }
      ⟨context.Canceled⟩ (freshHeap false false)).2.2 0 = conn at h4 h5 h6
    obtain ⟨⟨nc, cwr⟩, rel⟩ := conn
    simp only at h4 h5 h6
    subst h4 h5 h6
    rfl⟩

/-- C5: with or without a lease, Commit and Rollback return nil when the driver's finalize
error matches `pgconn.ErrLockCleanupConn` and return the driver's error unchanged (nil on
success) in every other case; a held lease is released and cleared either way. -/
theorem C5_lock_contention_is_suppressed {δ : Type} (t : PgxTx δ) (c : Option Nat) (a : Nat)
    (ctx : Context) (h : Heap) :
    (Tx.Commit { t := t, c := c } ctx h).1
        = (if errors.Is (t.Commit ctx).1 pgconn.ErrLockCleanupConn = true then []
           else (t.Commit ctx).1) ∧
      (Tx.Rollback { t := t, c := c } ctx h).1
        = (if errors.Is (t.Rollback ctx).1 pgconn.ErrLockCleanupConn = true then []
           else (t.Rollback ctx).1) ∧
      (Tx.Commit { t := t, c := some a } ctx h).2.1.c = none ∧
      ((Tx.Commit { t := t, c := some a } ctx h).2.2 a).released = (h a).released + 1 ∧
      (Tx.Rollback { t := t, c := some a } ctx h).2.1.c = none ∧
      ((Tx.Rollback { t := t, c := some a } ctx h).2.2 a).released = (h a).released + 1 := by
  refine ⟨?_, ?_, (Commit_released t a ctx h).1, (Commit_released t a ctx h).2,
    (Rollback_released t a ctx h).1, (Rollback_released t a ctx h).2⟩
  · cases c <;> rfl
  · cases c <;> rfl

/-- C7 as stated fails: a driver error of the "other" class (not the context's error, not
lock contention, not safe to retry) is returned to the caller, but the connection's
`needsCleanup` flag is not set by Commit or Rollback. -/
theorem C7_counterexample :
    errOther ≠ [] ∧
      errors.Is errOther context.Canceled = false ∧
      errors.Is errOther pgconn.ErrLockCleanupConn = false ∧
      safeToRetry errOther = false ∧
      (Tx.Commit { t := constDriver errOther, c := some 0 } ⟨context.Canceled⟩
        (freshHeap false false)).1 = errOther ∧
      ((Tx.Commit { t := constDriver errOther, c := some 0 } ⟨context.Canceled⟩
        (freshHeap false false)).2.2 0).pgConn.needsCleanup = false ∧
      ((Tx.Rollback { t := constDriver errOther, c := some 0 } ⟨context.Canceled⟩
        (freshHeap false false)).2.2 0).pgConn.needsCleanup = false := by
  decide

/-- C7, amended: on a Tx holding a lease, when the driver call fails with an error that is
neither the context's own error nor lock contention, Commit and Rollback return that error
unchanged, release the connection and clear the lease, and leave both cleanup flags exactly
as they were before the call. -/
theorem C7_other_error_surfaced_flags_kept {δ : Type} (t : PgxTx δ) (a : Nat) (ctx : Context)
    (h : Heap) :
    ((t.Commit ctx).1 ≠ [] → errors.Is (t.Commit ctx).1 ctx.Err = false →
        errors.Is (t.Commit ctx).1 pgconn.ErrLockCleanupConn = false →
        (Tx.Commit { t := t, c := some a } ctx h).1 = (t.Commit ctx).1 ∧
          (Tx.Commit { t := t, c := some a } ctx h).2.1.c = none ∧
          (Tx.Commit { t := t, c := some a } ctx h).2.2 a
            = { pgConn := (h a).pgConn, released := (h a).released + 1 }) ∧
      ((t.Rollback ctx).1 ≠ [] → errors.Is (t.Rollback ctx).1 ctx.Err = false →
        errors.Is (t.Rollback ctx).1 pgconn.ErrLockCleanupConn = false →
        (Tx.Rollback { t := t, c := some a } ctx h).1 = (t.Rollback ctx).1 ∧
          (Tx.Rollback { t := t, c := some a } ctx h).2.1.c = none ∧
          (Tx.Rollback { t := t, c := some a } ctx h).2.2 a
            = { pgConn := (h a).pgConn, released := (h a).released + 1 }) := by
  constructor
  · intro _ his hlock
    simp [Tx.Commit, Conn.Release, his, hlock]
  · intro _ his hlock
    simp [Tx.Rollback, Conn.Release, his, hlock]

/-- Witness of the amended C7: an unrelated error under a canceled context on a connection
already flagged for cleanup. -/
theorem C7_other_error_surfaced_flags_kept_witness :
    ((constDriver errOther).Commit ⟨context.Canceled⟩).1 ≠ [] ∧
      errors.Is ((constDriver errOther).Commit ⟨context.Canceled⟩).1 context.Canceled = false ∧
      errors.Is ((constDriver errOther).Commit ⟨context.Canceled⟩).1 pgconn.ErrLockCleanupConn
        = false ∧
      (Tx.Commit { t := constDriver errOther, c := some 0 } ⟨context.Canceled⟩
        (freshHeap true false)).1 = errOther ∧
      (Tx.Commit { t := constDriver errOther, c := some 0 } ⟨context.Canceled⟩
        (freshHeap true false)).2.2 0 = ⟨⟨true, false⟩, 1⟩ ∧
      (Tx.Rollback { t := constDriver errOther, c := some 0 } ⟨context.Canceled⟩
        (freshHeap true false)).2.2 0 = ⟨⟨true, false⟩, 1⟩ :=
  have h := C7_other_error_surfaced_flags_kept (constDriver errOther) 0 ⟨context.Canceled⟩
    (freshHeap true false)
  ⟨by decide, by decide, by decide,
   (h.1 (by decide) (by decide) (by decide)).1,
   (h.1 (by decide) (by decide) (by decide)).2.2,
   (h.2 (by decide) (by decide) (by decide)).2.2⟩

/-- C8: Commit and Rollback run the same finalize protocol: whenever the driver's commit and
the driver's rollback return the same error `e`, the two calls return the same error, leave
the same heap (same flags and same release counts on every connection) and the same lease
reference, whether or not a lease is held. -/
theorem C8_commit_rollback_same_protocol {δ : Type} (tx : Tx δ) (ctx : Context) (h : Heap)
    (e : Error) (hc : (tx.t.Commit ctx).1 = e) (hr : (tx.t.Rollback ctx).1 = e) :
    (tx.Commit ctx h).1 = (tx.Rollback ctx h).1 ∧
      (tx.Commit ctx h).2.2 = (tx.Rollback ctx h).2.2 ∧
      (tx.Commit ctx h).2.1.c = (tx.Rollback ctx h).2.1.c := by
  cases hl : tx.c <;> simp [Tx.Commit, Tx.Rollback, hl, hc, hr]

/-- Witness of C8: a leased Tx whose driver fails both calls with the already-done error. -/
theorem C8_commit_rollback_same_protocol_witness :
    ((constDriver errCtxAlreadyDone).Commit ⟨context.Canceled⟩).1 = errCtxAlreadyDone ∧
      ((constDriver errCtxAlreadyDone).Rollback ⟨context.Canceled⟩).1 = errCtxAlreadyDone ∧
      (Tx.Commit { t := constDriver errCtxAlreadyDone, c := some 0 } ⟨context.Canceled⟩
          (freshHeap false false)).1
        = (Tx.Rollback { t := constDriver errCtxAlreadyDone, c := some 0 } ⟨context.Canceled⟩
          (freshHeap false false)).1 ∧
      (Tx.Commit { t := constDriver errCtxAlreadyDone, c := some 0 } ⟨context.Canceled⟩
          (freshHeap false false)).2.2
        = (Tx.Rollback { t := constDriver errCtxAlreadyDone, c := some 0 } ⟨context.Canceled⟩
          (freshHeap false false)).2.2 ∧
      (Tx.Commit { t := constDriver errCtxAlreadyDone, c := some 0 } ⟨context.Canceled⟩
          (freshHeap false false)).2.1.c
        = (Tx.Rollback { t := constDriver errCtxAlreadyDone, c := some 0 } ⟨context.Canceled⟩
          (freshHeap false false)).2.1.c :=
  ⟨rfl, rfl,
   C8_commit_rollback_same_protocol { t := constDriver errCtxAlreadyDone, c := some 0 }
     ⟨context.Canceled⟩ (freshHeap false false) errCtxAlreadyDone rfl rfl⟩

/-- C9: on a Tx holding a lease, when the driver's finalize call succeeds, or the context
has no error, or the driver's error is not the context's error, Commit and Rollback leave
both cleanup flags exactly as they were and only release the connection. -/
theorem C9_flags_untouched_unless_context_error {δ : Type} (t : PgxTx δ) (a : Nat)
    (ctx : Context) (h : Heap) :
    (((t.Commit ctx).1 = [] ∨ ctx.Err = [] ∨ errors.Is (t.Commit ctx).1 ctx.Err = false) →
        (Tx.Commit { t := t, c := some a } ctx h).2.2
          = Function.update h a { pgConn := (h a).pgConn, released := (h a).released + 1 }) ∧
      (((t.Rollback ctx).1 = [] ∨ ctx.Err = [] ∨
          errors.Is (t.Rollback ctx).1 ctx.Err = false) →
        (Tx.Rollback { t := t, c := some a } ctx h).2.2
          = Function.update h a { pgConn := (h a).pgConn, released := (h a).released + 1 }) := by
  have key : ∀ e : Error, (e = [] ∨ ctx.Err = [] ∨ errors.Is e ctx.Err = false) →
      (!e.isEmpty && errors.Is e ctx.Err) = false := by
    intro e he
    rcases he with he | he | he
    · simp [he]
    · cases e with
      | nil => rfl
      | cons n rest => simp [he, errors.Is]
    · simp [he]
  constructor
  · intro hyp
    have hk := key _ hyp
    simp only [Tx.Commit, Conn.Release, hk]
    simp
  · intro hyp
    have hk := key _ hyp
    simp only [Tx.Rollback, Conn.Release, hk]
    simp

/-- Witness of C9: a successful commit and a rollback failing with an unrelated error, on a
connection with `cleanupWithoutReset` set. -/
theorem C9_flags_untouched_unless_context_error_witness :
    ((constDriver []).Commit ⟨context.Canceled⟩).1 = [] ∧
      (Tx.Commit { t := constDriver [], c := some 0 } ⟨context.Canceled⟩
        (freshHeap false true)).2.2 0 = ⟨⟨false, true⟩, 1⟩ ∧
      errors.Is ((constDriver errOther).Rollback ⟨context.Canceled⟩).1 context.Canceled
        = false ∧
      (Tx.Rollback { t := constDriver errOther, c := some 0 } ⟨context.Canceled⟩
        (freshHeap false true)).2.2 0 = ⟨⟨false, true⟩, 1⟩ :=
  ⟨rfl,
   by
    rw [(C9_flags_untouched_unless_context_error (constDriver []) 0 ⟨context.Canceled⟩
      (freshHeap false true)).1 (Or.inl rfl)]
    rfl,
   by decide,
   by
    rw [(C9_flags_untouched_unless_context_error (constDriver errOther) 0 ⟨context.Canceled⟩
      (freshHeap false true)).2 (Or.inr (Or.inr (by decide)))]
    rfl⟩

end Pgxpool
